import Mathlib

/-!
# Verification of the paykit-lib transport core

A shallow embedding of `paykit-lib` (files `src/lib.rs`,
`src/transport/traits.rs`, `src/transport/pubky/mod.rs`,
`src/transport/pubky/authenticated_transport.rs`,
`src/transport/pubky/unauthenticated_transport.rs`).

Rust `String` values (method ids, endpoint payloads, addresses, error
messages) are modelled as lists of Unicode code points (`Text`); raw
network bodies are lists of bytes (`Bytes`).  The external Pubky SDK
(network client) is modelled as an oracle (`Env`) giving the outcome of
each `get`/`list` call, and — for the write-side round-trip claims — as
a concrete key-value `Store` modelled from the spec.
-/

/-- Rust `String` / `&str`: a sequence of Unicode code points. -/
abbrev Text := List Nat

/-- Raw body bytes as returned by the network. -/
abbrev Bytes := List Nat

/-- Embed a Lean string literal as `Text` (for concrete inputs and the
string literals appearing in the source). -/
def str (s : String) : Text := s.toList.map Char.toNat

/-- A valid Unicode scalar value (what a Rust `char` carries):
below `0x110000` and not a surrogate. -/
def ValidCp (c : Nat) : Prop := c < 1114112 ∧ (c < 55296 ∨ 57344 ≤ c)

instance (c : Nat) : Decidable (ValidCp c) := by
  unfold ValidCp; infer_instance

/-- Every code point of the text is a valid Unicode scalar value
(guaranteed by Rust `String`). -/
def ValidText (s : Text) : Prop := ∀ c ∈ s, ValidCp c

instance (s : Text) : Decidable (ValidText s) := by
  unfold ValidText; infer_instance

/-- UTF-8 encoding of one Unicode scalar value (1 to 4 bytes). -/
def utf8EncodeChar (c : Nat) : Bytes :=
  if c < 128 then [c]
  else if c < 2048 then [192 + c / 64, 128 + c % 64]
  else if c < 65536 then [224 + c / 4096, 128 + c / 64 % 64, 128 + c % 64]
  else [240 + c / 262144, 128 + c / 4096 % 64, 128 + c / 64 % 64, 128 + c % 64]

/-- UTF-8 encoding of a text (what Rust writes on the wire for a `String`). -/
def utf8Encode : Text → Bytes
  | [] => []
  | c :: cs => utf8EncodeChar c ++ utf8Encode cs

/-- Strict UTF-8 decoding of a single scalar value from the front of a
byte sequence, returning it together with the remaining bytes.  Rejects
bad lead bytes, bad continuation bytes, overlong encodings, surrogates
and out-of-range values, exactly as Rust `String::from_utf8` does. -/
def utf8DecodeOne : Bytes → Option (Nat × Bytes)
  | [] => none
  | b :: rest =>
    if b < 128 then some (b, rest)
    else if b < 194 then none
    else if b < 224 then
      match rest with
      | b1 :: rest2 =>
        if 128 ≤ b1 ∧ b1 < 192 then some ((b - 192) * 64 + (b1 - 128), rest2)
        else none
      | [] => none
    else if b < 240 then
      match rest with
      | b1 :: b2 :: rest3 =>
        if (128 ≤ b1 ∧ b1 < 192) ∧ (128 ≤ b2 ∧ b2 < 192) then
          let c := (b - 224) * 4096 + (b1 - 128) * 64 + (b2 - 128)
          if c < 2048 then none
          else if 55296 ≤ c ∧ c < 57344 then none
          else some (c, rest3)
        else none
      | _ => none
    else if b < 245 then
      match rest with
      | b1 :: b2 :: b3 :: rest4 =>
        if (128 ≤ b1 ∧ b1 < 192) ∧ ((128 ≤ b2 ∧ b2 < 192) ∧ (128 ≤ b3 ∧ b3 < 192)) then
          let c := (b - 240) * 262144 + (b1 - 128) * 4096 + (b2 - 128) * 64 + (b3 - 128)
          if c < 65536 then none
          else if 1114112 ≤ c then none
          else some (c, rest4)
        else none
      | _ => none
    else none

set_option maxHeartbeats 1000000 in
/-- Strict UTF-8 decoding of a byte sequence (the semantics of Rust
`String::from_utf8`): `none` exactly when the bytes are not valid UTF-8. -/
def utf8Decode (bs : Bytes) : Option Text :=
  match bs with
  | [] => some []
  | b :: tl =>
    match hone : utf8DecodeOne (b :: tl) with
    | some (c, rest) =>
      match utf8Decode rest with
      | some cs => some (c :: cs)
      | none => none
    | none => none
termination_by bs.length
decreasing_by
  simp only [utf8DecodeOne] at hone
  repeat' split at hone
  all_goals simp_all
  all_goals omega

/-- Model of `pubky::Error` as seen by this crate: either a server
response error carrying an HTTP status (`RequestError::Server`), or any
other SDK failure.  The SDK's error display is abstracted as the carried
message (modelled from the spec: the SDK is an external collaborator). -/
inductive PubkyErr where
  | server (status : Nat) (msg : Text)
  | other (msg : Text)
deriving DecidableEq

/-- The message text an error formats to (Rust `format!("{err}")`,
abstracted). -/
def errText : PubkyErr → Text
  | .server _ m => m
  | .other m => m

/-- `is_not_found` (`unauthenticated_transport.rs:151-157`): a server
response error with status `NOT_FOUND` (404) or `GONE` (410). -/
def is_not_found (e : PubkyErr) : Bool :=
  match e with
  | .server status _ => status == 404 || status == 410
  | .other _ => false

/-- `PaykitError` (`lib.rs:62-70`). -/
inductive PaykitError where
  | Unimplemented (label : Text)
  | Transport (msg : Text)
deriving DecidableEq

/-- Outcome of one `self.inner.get(addr).await` network call followed by
`resp.bytes().await`: body bytes on success, a failure of `bytes()`, or
a failed request. -/
inductive GetOutcome where
  | ok (bytes : Bytes)
  | bytesErr (msg : Text)
  | err (e : PubkyErr)
deriving DecidableEq

/-- `PubkyUnauthenticatedTransport::fetch_text`
(`unauthenticated_transport.rs:38-55`) as a function of the outcome of
the underlying `get`: not-found/gone and empty bodies map to `none`,
non-empty valid-UTF-8 bodies to `some`, everything else to a
`Transport` error labelled with `label`. -/
def fetch_text (out : GetOutcome) (label : Text) : Except PaykitError (Option Text) :=
  match out with
  | .ok bytes =>
    if bytes.isEmpty then .ok none
    else
      match utf8Decode bytes with
      | some data => .ok (some data)
      | none => .error (.Transport (label ++ str ": invalid utf-8"))
  | .bytesErr msg => .error (.Transport (label ++ str ": " ++ msg))
  | .err e =>
    if is_not_found e then .ok none
    else .error (.Transport (label ++ str ": " ++ errText e))

/-- A `PubkyResource` returned by a listing: its `path` and the full
address its `Display` implementation renders (`resource.to_string()`). -/
structure PubkyResource where
  path : Text
  addr : Text
deriving DecidableEq

/-- Outcome of `self.inner.list(&addr)` followed by
`builder.shallow(true).send().await`: the builder construction may fail,
the send may fail, or a list of entries is returned. -/
inductive ListOutcome where
  | builderErr (e : PubkyErr)
  | sendErr (e : PubkyErr)
  | ok (entries : List PubkyResource)

/-- `PubkyUnauthenticatedTransport::list_entries`
(`unauthenticated_transport.rs:57-71`): not-found/gone at either stage
yields an empty listing; other failures yield a labelled `Transport`
error (the send stage with a `" send failed"` infix). -/
def list_entries (out : ListOutcome) (label : Text) : Except PaykitError (List PubkyResource) :=
  match out with
  | .builderErr e =>
    if is_not_found e then .ok []
    else .error (.Transport (label ++ str ": " ++ errText e))
  | .sendErr e =>
    if is_not_found e then .ok []
    else .error (.Transport (label ++ str " send failed: " ++ errText e))
  | .ok entries => .ok entries

/-- The unauthenticated SDK handle (`pubky::PublicStorage`) plus
`str::parse::<PublicKey>`, modelled as oracles: the outcome of `get` and
`list` at each address, and the public-key parser (modelled from the
spec: `PublicKey` is "parseable from its string form", the concrete
format belongs to the external SDK).  A parse returns the parsed key or
an error message. -/
structure Env where
  get : Text → GetOutcome
  list : Text → ListOutcome
  parsePk : Text → Except Text Text

/-- `PAYKIT_PATH_PREFIX` (`transport/pubky/mod.rs:14`). -/
def PAYKIT_PATH_PREFIX : Text := str "/pub/paykit.app/v0/"

/-- `PUBKY_FOLLOWS_PATH` (`transport/pubky/mod.rs:16`). -/
def PUBKY_FOLLOWS_PATH : Text := str "/pub/pubky.app/follows/"

/-- A participant's storage root as addressed by the unauthenticated
transport: `format!("pubky{pk}")`. -/
def rootOf (pk : Text) : Text := str "pubky" ++ pk

/-- The listing address of the payments namespace:
`format!("pubky{payee}{PAYKIT_PATH_PREFIX}")`
(`unauthenticated_transport.rs:77`). -/
def paymentsListAddr (payee : Text) : Text :=
  str "pubky" ++ payee ++ PAYKIT_PATH_PREFIX

/-- The address of a single payment-endpoint document:
`format!("pubky{payee}{PAYKIT_PATH_PREFIX}{method}")`
(`unauthenticated_transport.rs:113`). -/
def endpointAddr (payee method : Text) : Text :=
  str "pubky" ++ payee ++ PAYKIT_PATH_PREFIX ++ method

/-- The listing address of the contacts namespace:
`format!("pubky{owner}{PUBKY_FOLLOWS_PATH}")`
(`unauthenticated_transport.rs:121`). -/
def followsAddr (owner : Text) : Text :=
  str "pubky" ++ owner ++ PUBKY_FOLLOWS_PATH

/-- Rust `path.as_str().ends_with('/')`. -/
def endsWithSlash (p : Text) : Bool := p.getLast? == some 47

/-- Rust `path.as_str().rsplit('/').next().unwrap()`: the segment after
the last `/` (the whole string when it contains no `/`). -/
def afterLastSlash (p : Text) : Text :=
  (p.reverse.takeWhile (fun c => c != 47)).reverse

/-- The chain `rsplit('/').next().filter(|segment| !segment.is_empty())`
used by both resolution algorithms. -/
def lastSegment (p : Text) : Option Text :=
  if afterLastSlash p = [] then none else some (afterLastSlash p)

/-- `HashMap::insert` on an association-list model of the map: replace
the value at an existing key, else append. -/
def insertA (k v : Text) : List (Text × Text) → List (Text × Text)
  | [] => [(k, v)]
  | (k2, v2) :: rest => if k2 = k then (k, v) :: rest else (k2, v2) :: insertA k v rest

/-- `HashMap::get` on the association-list model. -/
def lookupA (k : Text) : List (Text × Text) → Option Text
  | [] => none
  | (k2, v2) :: rest => if k2 = k then some v2 else lookupA k rest

/-- `SupportedPayments` (`lib.rs:100-103`): map of method id to endpoint
data. -/
structure SupportedPayments where
  entries : List (Text × Text)
deriving DecidableEq

/-- The `for resource in entries` loop of `fetch_supported_payments`
(`unauthenticated_transport.rs:80-103`): skip pseudo-directories, fail
on an unextractable trailing segment, fetch each entry's document at
`resource.to_string()`, skip absent/empty bodies, insert non-empty
payloads keyed by the trailing segment. -/
def fetch_supported_payments_loop (env : Env) :
    List PubkyResource → List (Text × Text) → Except PaykitError (List (Text × Text))
  | [], map => .ok map
  | r :: rest, map =>
    if endsWithSlash r.path then fetch_supported_payments_loop env rest map
    else
      match lastSegment r.path with
      | none => .error (.Transport (str "invalid resource returned for supported payment entry"))
      | some method =>
        match fetch_text (env.get r.addr) (str "fetch endpoint " ++ method) with
        | .error e => .error e
        | .ok none => fetch_supported_payments_loop env rest map
        | .ok (some payload) => fetch_supported_payments_loop env rest (insertA method payload map)

/-- `PubkyUnauthenticatedTransport::fetch_supported_payments`
(`unauthenticated_transport.rs:76-106`). -/
def fetch_supported_payments (env : Env) (payee : Text) : Except PaykitError SupportedPayments :=
  match list_entries (env.list (paymentsListAddr payee)) (str "list supported payments") with
  | .error e => .error e
  | .ok entries =>
    match fetch_supported_payments_loop env entries [] with
    | .error e => .error e
    | .ok map => .ok ⟨map⟩

/-- `PubkyUnauthenticatedTransport::fetch_payment_endpoint`
(`unauthenticated_transport.rs:108-118`). -/
def fetch_payment_endpoint (env : Env) (payee method : Text) : Except PaykitError (Option Text) :=
  match fetch_text (env.get (endpointAddr payee method)) (str "fetch endpoint") with
  | .ok (some payload) => .ok (some payload)
  | .ok none => .ok none
  | .error e => .error e

/-- The `for resource in entries` loop of `fetch_known_contacts`
(`unauthenticated_transport.rs:125-145`): skip pseudo-directories, skip
entries with no extractable trailing segment (`if let Some`), parse each
segment as a public key, abort on a parse failure with a message naming
the segment, push parsed keys in order. -/
def fetch_known_contacts_loop (parse : Text → Except Text Text) :
    List PubkyResource → List Text → Except PaykitError (List Text)
  | [], contacts => .ok contacts
  | r :: rest, contacts =>
    if endsWithSlash r.path then fetch_known_contacts_loop parse rest contacts
    else
      match lastSegment r.path with
      | some pk_str =>
        match parse pk_str with
        | .ok pk => fetch_known_contacts_loop parse rest (contacts ++ [pk])
        | .error err =>
          .error (.Transport (str "invalid contact entry " ++ [39] ++ pk_str ++ [39]
            ++ str ": " ++ err))
      | none => fetch_known_contacts_loop parse rest contacts

/-- `PubkyUnauthenticatedTransport::fetch_known_contacts`
(`unauthenticated_transport.rs:120-148`). -/
def fetch_known_contacts (env : Env) (owner : Text) : Except PaykitError (List Text) :=
  match list_entries (env.list (followsAddr owner)) (str "list known contacts") with
  | .error e => .error e
  | .ok entries => fetch_known_contacts_loop env.parsePk entries []

/-- The `UnauthenticatedTransportRead` trait (`transport/traits.rs:7-21`)
as a record of its three operations. -/
structure UnauthenticatedTransportRead where
  fetch_supported_payments : Text → Except PaykitError SupportedPayments
  fetch_payment_endpoint : Text → Text → Except PaykitError (Option Text)
  fetch_known_contacts : Text → Except PaykitError (List Text)

/-- The `AuthenticatedTransport` trait (`transport/traits.rs:25-31`) as a
record of its two operations. -/
structure AuthenticatedTransport where
  upsert_payment_endpoint : Text → Text → Except PaykitError Unit
  remove_payment_endpoint : Text → Except PaykitError Unit

/-- `map_transport_error` (`lib.rs:234-239`): prefix the operation label
onto `Transport` messages, pass every other error kind through. -/
def map_transport_error (label : Text) (err : PaykitError) : PaykitError :=
  match err with
  | .Transport msg => .Transport (label ++ str ": " ++ msg)
  | _ => err

/-- Facade `set_payment_endpoint` (`lib.rs:118-126`). -/
def set_payment_endpoint (client : AuthenticatedTransport) (method data : Text) :
    Except PaykitError Unit :=
  (client.upsert_payment_endpoint method data).mapError
    (map_transport_error (str "set_payment_endpoint"))

/-- Facade `remove_payment_endpoint` (`lib.rs:129-137`). -/
def remove_payment_endpoint (client : AuthenticatedTransport) (method : Text) :
    Except PaykitError Unit :=
  (client.remove_payment_endpoint method).mapError
    (map_transport_error (str "remove_payment_endpoint"))

/-- Facade `get_payment_list` (`lib.rs:162-170`). -/
def get_payment_list (reader : UnauthenticatedTransportRead) (payee : Text) :
    Except PaykitError SupportedPayments :=
  (reader.fetch_supported_payments payee).mapError
    (map_transport_error (str "get_payment_list"))

/-- Facade `get_payment_endpoint` (`lib.rs:192-204`). -/
def get_payment_endpoint (reader : UnauthenticatedTransportRead) (payee method : Text) :
    Except PaykitError (Option Text) :=
  (reader.fetch_payment_endpoint payee method).mapError
    (map_transport_error (str "get_payment_endpoint"))

/-- Facade `get_known_contacts` (`lib.rs:224-232`). -/
def get_known_contacts (reader : UnauthenticatedTransportRead) (key : Text) :
    Except PaykitError (List Text) :=
  (reader.fetch_known_contacts key).mapError
    (map_transport_error (str "get_known_contacts"))

/-- The `impl UnauthenticatedTransportRead for PubkyUnauthenticatedTransport`
(`unauthenticated_transport.rs:74-149`) packaged as the trait record. -/
def pubkyReader (env : Env) : UnauthenticatedTransportRead :=
  { fetch_supported_payments := fetch_supported_payments env
    fetch_payment_endpoint := fetch_payment_endpoint env
    fetch_known_contacts := fetch_known_contacts env }

/-- Modelled from the spec: the remote storage network (spec §6), which
is not part of this repository — a mapping from full address to stored
bytes.  §6 specifies `get` (distinguishable not-found), `put`
(create-or-replace) and `delete` (fails when nothing exists there). -/
structure Store where
  files : List (Text × Bytes)
deriving DecidableEq

/-- Modelled from the spec: `put(address, bytes)` — create-or-replace
content at address (spec §6). -/
def Store.put (st : Store) (addr : Text) (content : Bytes) : Store :=
  ⟨insertA addr content st.files⟩

/-- Modelled from the spec: `get(address)` — fetch raw content, with a
distinguishable not-found condition (spec §6), signalled as a 404 server
response. -/
def Store.getOutcome (st : Store) (addr : Text) : GetOutcome :=
  match lookupA addr st.files with
  | some content => .ok content
  | none => .err (.server 404 (str "not found"))

/-- Modelled from the spec: `delete(address)` — remove content at
address; must fail if nothing exists there (spec §6). -/
def Store.delete (st : Store) (addr : Text) : Except PubkyErr Store :=
  match lookupA addr st.files with
  | some _ => .ok ⟨st.files.filter (fun kv => kv.1 != addr)⟩
  | none => .error (.server 404 (str "not found"))

/-- `PubkyAuthenticatedTransport::upsert_payment_endpoint`
(`authenticated_transport.rs:36-44`) in state-passing form:
`put` at `PAYKIT_PATH_PREFIX ++ method` through the session's storage.
The session's storage is rooted at the owner's identity (spec §4.3:
`{root}/paykit.app/v0/{method_id}`), so the session-relative path `p`
lands at the full address `rootOf owner ++ p`; the spec-§6 `put` always
succeeds, and the payload is the UTF-8 encoding of `data`. -/
def PubkyAuth.upsert_payment_endpoint (owner : Text) (st : Store) (method data : Text) :
    Except PaykitError Store :=
  let path := PAYKIT_PATH_PREFIX ++ method
  .ok (st.put (rootOf owner ++ path) (utf8Encode data))

/-- `PubkyAuthenticatedTransport::remove_payment_endpoint`
(`authenticated_transport.rs:46-54`) in state-passing form: `delete` at
`PAYKIT_PATH_PREFIX ++ method` through the session's storage (rooted as
for upsert), wrapping a delete failure as
`Transport("delete endpoint: {err}")`. -/
def PubkyAuth.remove_payment_endpoint (owner : Text) (st : Store) (method : Text) :
    Except PaykitError Store :=
  let path := PAYKIT_PATH_PREFIX ++ method
  match st.delete (rootOf owner ++ path) with
  | .ok st2 => .ok st2
  | .error e => .error (.Transport (str "delete endpoint: " ++ errText e))

/-- Facade `set_payment_endpoint` composed with the Pubky authenticated
adapter, in state-passing form (`lib.rs:118-126` over
`authenticated_transport.rs:36-44`). -/
def set_payment_endpoint_run (owner : Text) (st : Store) (method data : Text) :
    Except PaykitError Store :=
  (PubkyAuth.upsert_payment_endpoint owner st method data).mapError
    (map_transport_error (str "set_payment_endpoint"))

/-- Facade `remove_payment_endpoint` composed with the Pubky
authenticated adapter, in state-passing form (`lib.rs:129-137` over
`authenticated_transport.rs:46-54`). -/
def remove_payment_endpoint_run (owner : Text) (st : Store) (method : Text) :
    Except PaykitError Store :=
  (PubkyAuth.remove_payment_endpoint owner st method).mapError
    (map_transport_error (str "remove_payment_endpoint"))

/-- An `Env` whose `get` oracle is backed by a spec-modelled `Store`
(the `list` and `parsePk` oracles are supplied separately; the
single-document operations never consult them). -/
def Store.env (st : Store) (l : Text → ListOutcome) (p : Text → Except Text Text) : Env :=
  { get := st.getOutcome, list := l, parsePk := p }

theorem utf8Decode_nil : utf8Decode [] = some [] := by
  simp [utf8Decode]

theorem utf8Decode_cons (b : Nat) (tl : Bytes) :
    utf8Decode (b :: tl) =
      match utf8DecodeOne (b :: tl) with
      | some (c, rest) =>
        match utf8Decode rest with
        | some cs => some (c :: cs)
        | none => none
      | none => none := by
  conv_lhs => rw [utf8Decode.eq_def]
  split
  · rename_i hDec
    exact absurd hDec (by simp)
  · rename_i b2 tl2 hDec
    injection hDec with hb htl
    subst hb
    subst htl
    split
    · rename_i c rest hone2
      rw [hone2]
    · rename_i hone2
      rw [hone2]

theorem utf8EncodeChar_ne_nil (c : Nat) : utf8EncodeChar c ≠ [] := by
  unfold utf8EncodeChar
  split
  · simp
  · split
    · simp
    · split <;> simp

theorem utf8Encode_ne_nil (s : Text) (h : s ≠ []) : utf8Encode s ≠ [] := by
  cases s with
  | nil => exact absurd rfl h
  | cons c cs =>
    show utf8EncodeChar c ++ utf8Encode cs ≠ []
    intro hcontra
    exact utf8EncodeChar_ne_nil c (List.append_eq_nil.mp hcontra).1

theorem utf8DecodeOne_encodeChar (c : Nat) (tail : Bytes) (h : ValidCp c) :
    utf8DecodeOne (utf8EncodeChar c ++ tail) = some (c, tail) := by
  obtain ⟨hlt, hsurr⟩ := h
  by_cases h1 : c < 128
  · have e1 : utf8EncodeChar c = [c] := by unfold utf8EncodeChar; rw [if_pos h1]
    simp only [e1, List.cons_append, List.nil_append, utf8DecodeOne]
    rw [if_pos h1]
  · by_cases h2 : c < 2048
    · have e1 : utf8EncodeChar c = [192 + c / 64, 128 + c % 64] := by
        unfold utf8EncodeChar; rw [if_neg h1, if_pos h2]
      simp only [e1, List.cons_append, List.nil_append, utf8DecodeOne]
      rw [if_neg (by omega), if_neg (by omega), if_pos (by omega),
        if_pos (by constructor <;> omega)]
      have ec : (192 + c / 64 - 192) * 64 + (128 + c % 64 - 128) = c := by omega
      rw [ec]
    · by_cases h3 : c < 65536
      · have e1 : utf8EncodeChar c = [224 + c / 4096, 128 + c / 64 % 64, 128 + c % 64] := by
          unfold utf8EncodeChar; rw [if_neg h1, if_neg h2, if_pos h3]
        simp only [e1, List.cons_append, List.nil_append, utf8DecodeOne]
        rw [if_neg (by omega), if_neg (by omega), if_neg (by omega), if_pos (by omega),
          if_pos (by refine ⟨⟨by omega, by omega⟩, by omega, by omega⟩)]
        have ec : (224 + c / 4096 - 224) * 4096 + (128 + c / 64 % 64 - 128) * 64
            + (128 + c % 64 - 128) = c := by omega
        simp only [ec]
        rw [if_neg (by omega), if_neg (by omega)]
      · have e1 : utf8EncodeChar c = [240 + c / 262144, 128 + c / 4096 % 64,
            128 + c / 64 % 64, 128 + c % 64] := by
          unfold utf8EncodeChar; rw [if_neg h1, if_neg h2, if_neg h3]
        simp only [e1, List.cons_append, List.nil_append, utf8DecodeOne]
        rw [if_neg (by omega), if_neg (by omega), if_neg (by omega), if_neg (by omega),
          if_pos (by omega),
          if_pos (by refine ⟨⟨by omega, by omega⟩, ⟨by omega, by omega⟩, by omega, by omega⟩)]
        have ec : (240 + c / 262144 - 240) * 262144 + (128 + c / 4096 % 64 - 128) * 4096
            + (128 + c / 64 % 64 - 128) * 64 + (128 + c % 64 - 128) = c := by omega
        simp only [ec]
        rw [if_neg (by omega), if_neg (by omega)]

/-- Decoding inverts encoding on valid text (Rust round trip:
`String::from_utf8(s.into_bytes()) = Ok(s)`). -/
theorem utf8Decode_utf8Encode (s : Text) (h : ValidText s) :
    utf8Decode (utf8Encode s) = some s := by
  induction s with
  | nil => exact utf8Decode_nil
  | cons c cs ih =>
    have hc : ValidCp c := h c (by simp)
    have ih' : utf8Decode (utf8Encode cs) = some cs :=
      ih (fun x hx => h x (by simp [hx]))
    show utf8Decode (utf8EncodeChar c ++ utf8Encode cs) = some (c :: cs)
    have hne : utf8EncodeChar c ++ utf8Encode cs ≠ [] := by
      intro hcontra
      exact utf8EncodeChar_ne_nil c (List.append_eq_nil.mp hcontra).1
    have hone := utf8DecodeOne_encodeChar c (utf8Encode cs) hc
    obtain ⟨b, tl, hcase⟩ : ∃ b tl, utf8EncodeChar c ++ utf8Encode cs = b :: tl := by
      cases hx : utf8EncodeChar c ++ utf8Encode cs with
      | nil => exact absurd hx hne
      | cons b tl => exact ⟨b, tl, rfl⟩
    rw [hcase] at hone ⊢
    rw [utf8Decode_cons, hone]
    simp [ih']

theorem lookupA_insertA_self (k v : Text) (m : List (Text × Text)) :
    lookupA k (insertA k v m) = some v := by
  induction m with
  | nil => simp [insertA, lookupA]
  | cons kv rest ih =>
    obtain ⟨k2, v2⟩ := kv
    by_cases h : k2 = k
    · simp [insertA, lookupA, h]
    · simp [insertA, lookupA, h, ih]

theorem lookupA_filter_ne (addr : Text) (m : List (Text × Bytes)) :
    lookupA addr (m.filter (fun kv => kv.1 != addr)) = none := by
  induction m with
  | nil => simp [lookupA]
  | cons kv rest ih =>
    obtain ⟨k2, v2⟩ := kv
    by_cases h : k2 = addr
    · simp [List.filter_cons, h, ih]
    · simp [List.filter_cons, h, lookupA, ih]

theorem takeWhile_append_stop (p : Nat → Bool) (xs ys : List Nat) (x : Nat)
    (hx : x ∈ xs) (hpx : p x = false) :
    (xs ++ ys).takeWhile p = xs.takeWhile p := by
  induction xs with
  | nil => simp at hx
  | cons a tl ih =>
    by_cases hpa : p a = true
    · rw [List.cons_append, List.takeWhile_cons, List.takeWhile_cons, hpa]
      simp only [if_true]
      have hxtl : x ∈ tl := by
        rcases List.mem_cons.mp hx with h | h
        · subst h; rw [hpa] at hpx; exact absurd hpx (by simp)
        · exact h
      rw [ih hxtl]
    · simp only [Bool.not_eq_true] at hpa
      rw [List.cons_append, List.takeWhile_cons, List.takeWhile_cons, hpa]
      simp

theorem takeWhile_length_lt (p : Nat → Bool) (l : List Nat) (x : Nat)
    (hx : x ∈ l) (hpx : p x = false) :
    (l.takeWhile p).length < l.length := by
  induction l with
  | nil => simp at hx
  | cons a tl ih =>
    by_cases hpa : p a = true
    · rw [List.takeWhile_cons, hpa]
      simp only [if_true]
      have hxtl : x ∈ tl := by
        rcases List.mem_cons.mp hx with h | h
        · subst h; rw [hpa] at hpx; exact absurd hpx (by simp)
        · exact h
      have := ih hxtl
      simp only [List.length_cons]
      omega
    · simp [Bool.not_eq_true] at hpa
      rw [List.takeWhile_cons, hpa]
      simp

theorem afterLastSlash_append (a b : Text) (hb : 47 ∈ b) :
    afterLastSlash (a ++ b) = afterLastSlash b := by
  unfold afterLastSlash
  rw [List.reverse_append]
  rw [takeWhile_append_stop _ _ _ 47 (by simp [hb]) (by simp)]

theorem afterLastSlash_shorter (m : Text) (hm : 47 ∈ m) :
    (afterLastSlash m).length < m.length := by
  unfold afterLastSlash
  rw [List.length_reverse]
  have := takeWhile_length_lt (fun c => c != 47) m.reverse 47 (by simp [hm]) (by simp)
  simpa using this

/-- C9: the address of a single payment-endpoint document is the payee's
root followed by the literal `/pub/paykit.app/v0/` followed by the
method id; the supported-payments listing address is that parent
directory without the trailing segment; the contacts listing address is
the owner's root followed by `/pub/pubky.app/follows/`. -/
theorem addressing_convention :
    PAYKIT_PATH_PREFIX = str "/pub/paykit.app/v0/"
  ∧ PUBKY_FOLLOWS_PATH = str "/pub/pubky.app/follows/"
  ∧ (∀ payee method, endpointAddr payee method
      = rootOf payee ++ (str "/pub/paykit.app/v0/" ++ method))
  ∧ (∀ payee, paymentsListAddr payee = rootOf payee ++ str "/pub/paykit.app/v0/")
  ∧ (∀ payee method, endpointAddr payee method = paymentsListAddr payee ++ method)
  ∧ (∀ owner, followsAddr owner = rootOf owner ++ str "/pub/pubky.app/follows/") := by
  refine ⟨rfl, rfl, fun payee method => ?_, fun payee => ?_,
    fun payee method => rfl, fun owner => ?_⟩ <;>
    simp [endpointAddr, paymentsListAddr, followsAddr, rootOf,
      PAYKIT_PATH_PREFIX, PUBKY_FOLLOWS_PATH, List.append_assoc]

/-- C10: no operation validates the `MethodId`: upsert, remove and fetch
compute their storage address by plain concatenation of the fixed
namespace prefix and the method string; an empty method addresses the
namespace directory itself, and a method containing `/` addresses a
location outside the flat `v0` directory (the addressed document's final
path segment is a proper suffix of the method string). -/
theorem method_id_not_validated :
    (∀ owner st method data,
      PubkyAuth.upsert_payment_endpoint owner st method data
        = .ok (st.put (rootOf owner ++ ( PAYKIT_PATH_PREFIX ++ method)) (utf8Encode data)))
  ∧ (∀ owner st method,
      PubkyAuth.remove_payment_endpoint owner st method
        = (match st.delete (rootOf owner ++ ( PAYKIT_PATH_PREFIX ++ method)) with
           | .ok st2 => .ok st2
           | .error e => .error (.Transport (str "delete endpoint: " ++ errText e))))
  ∧ (∀ env payee method, fetch_payment_endpoint env payee method
      = fetch_text (env.get (paymentsListAddr payee ++ method)) (str "fetch endpoint"))
  ∧ (∀ payee, endpointAddr payee ([] : Text) = paymentsListAddr payee)
  ∧ PAYKIT_PATH_PREFIX ++ ([] : Text) = PAYKIT_PATH_PREFIX
  ∧ (∀ payee method, 47 ∈ method →
      (afterLastSlash (endpointAddr payee method)).length < method.length) := by
  refine ⟨fun owner st method data => rfl, fun owner st method => rfl,
    fun env payee method => ?_, fun payee => ?_, by simp, fun payee method hm => ?_⟩
  · show (match fetch_text (env.get (endpointAddr payee method)) (str "fetch endpoint") with
      | .ok (some payload) => .ok (some payload)
      | .ok none => .ok none
      | .error e => .error e)
      = fetch_text (env.get (paymentsListAddr payee ++ method)) (str "fetch endpoint")
    have : endpointAddr payee method = paymentsListAddr payee ++ method := rfl
    rw [this]
    cases hft : fetch_text (env.get (paymentsListAddr payee ++ method)) (str "fetch endpoint") with
    | ok v => cases v <;> rfl
    | error e => rfl
  · show (str "pubky" ++ payee ++ PAYKIT_PATH_PREFIX) ++ ([] : Text) = paymentsListAddr payee
    simp [paymentsListAddr]
  · have he : endpointAddr payee method = paymentsListAddr payee ++ method := rfl
    rw [he, afterLastSlash_append (paymentsListAddr payee) method hm]
    exact afterLastSlash_shorter method hm

/-- C10 witness: the hypotheses discharged at the concrete method id
`"a/b"` (which contains a slash). -/
theorem method_id_not_validated_witness :
    (47 ∈ str "a/b")
    ∧ (afterLastSlash (endpointAddr (str "p") (str "a/b"))).length < (str "a/b").length :=
  ⟨by decide, method_id_not_validated.2.2.2.2.2 (str "p") (str "a/b") (by decide)⟩

/-- C7: each of the five facade operations passes `Ok` values through
unchanged, prefixes its own operation name onto `Transport` error
messages without altering the error kind, and passes any other error
kind through untouched. -/
theorem facade_error_mapping :
    (∀ (c : AuthenticatedTransport) method data,
        (∀ v, c.upsert_payment_endpoint method data = .ok v →
          set_payment_endpoint c method data = .ok v)
      ∧ (∀ msg, c.upsert_payment_endpoint method data = .error (.Transport msg) →
          set_payment_endpoint c method data
            = .error (.Transport (str "set_payment_endpoint" ++ str ": " ++ msg)))
      ∧ (∀ lab, c.upsert_payment_endpoint method data = .error (.Unimplemented lab) →
          set_payment_endpoint c method data = .error (.Unimplemented lab)))
  ∧ (∀ (c : AuthenticatedTransport) method,
        (∀ v, c.remove_payment_endpoint method = .ok v →
          remove_payment_endpoint c method = .ok v)
      ∧ (∀ msg, c.remove_payment_endpoint method = .error (.Transport msg) →
          remove_payment_endpoint c method
            = .error (.Transport (str "remove_payment_endpoint" ++ str ": " ++ msg)))
      ∧ (∀ lab, c.remove_payment_endpoint method = .error (.Unimplemented lab) →
          remove_payment_endpoint c method = .error (.Unimplemented lab)))
  ∧ (∀ (r : UnauthenticatedTransportRead) payee,
        (∀ v, r.fetch_supported_payments payee = .ok v →
          get_payment_list r payee = .ok v)
      ∧ (∀ msg, r.fetch_supported_payments payee = .error (.Transport msg) →
          get_payment_list r payee
            = .error (.Transport (str "get_payment_list" ++ str ": " ++ msg)))
      ∧ (∀ lab, r.fetch_supported_payments payee = .error (.Unimplemented lab) →
          get_payment_list r payee = .error (.Unimplemented lab)))
  ∧ (∀ (r : UnauthenticatedTransportRead) payee method,
        (∀ v, r.fetch_payment_endpoint payee method = .ok v →
          get_payment_endpoint r payee method = .ok v)
      ∧ (∀ msg, r.fetch_payment_endpoint payee method = .error (.Transport msg) →
          get_payment_endpoint r payee method
            = .error (.Transport (str "get_payment_endpoint" ++ str ": " ++ msg)))
      ∧ (∀ lab, r.fetch_payment_endpoint payee method = .error (.Unimplemented lab) →
          get_payment_endpoint r payee method = .error (.Unimplemented lab)))
  ∧ (∀ (r : UnauthenticatedTransportRead) key,
        (∀ v, r.fetch_known_contacts key = .ok v →
          get_known_contacts r key = .ok v)
      ∧ (∀ msg, r.fetch_known_contacts key = .error (.Transport msg) →
          get_known_contacts r key
            = .error (.Transport (str "get_known_contacts" ++ str ": " ++ msg)))
      ∧ (∀ lab, r.fetch_known_contacts key = .error (.Unimplemented lab) →
          get_known_contacts r key = .error (.Unimplemented lab))) := by
  refine ⟨fun c method data => ⟨?_, ?_, ?_⟩, fun c method => ⟨?_, ?_, ?_⟩,
    fun r payee => ⟨?_, ?_, ?_⟩, fun r payee method => ⟨?_, ?_, ?_⟩,
    fun r key => ⟨?_, ?_, ?_⟩⟩ <;>
  · intro x h
    simp [set_payment_endpoint, remove_payment_endpoint, get_payment_list,
      get_payment_endpoint, get_known_contacts, h, Except.mapError, map_transport_error]

/-- C7 witness: a client whose upsert fails with `Transport "boom"`: the
facade reports `Transport "set_payment_endpoint: boom"`. -/
theorem facade_error_mapping_witness :
    set_payment_endpoint
        ⟨fun _ _ => .error (.Transport (str "boom")), fun _ => .ok ()⟩
        (str "m") (str "d")
      = .error (.Transport (str "set_payment_endpoint" ++ str ": " ++ str "boom")) :=
  (facade_error_mapping.1
    ⟨fun _ _ => .error (.Transport (str "boom")), fun _ => .ok ()⟩
    (str "m") (str "d")).2.1 (str "boom") rfl

/-- C2: when the listing of the payments namespace reports not-found or
gone, `fetch_supported_payments` (and hence `get_payment_list`) returns
`Ok` with an empty collection; any other listing failure yields a
`Transport` error. -/
theorem absent_namespace_yields_empty (env : Env) (payee : Text) (e : PubkyErr)
    (h : env.list (paymentsListAddr payee) = .builderErr e ∨
         env.list (paymentsListAddr payee) = .sendErr e) :
    (is_not_found e = true →
      fetch_supported_payments env payee = .ok ⟨[]⟩
      ∧ get_payment_list (pubkyReader env) payee = .ok ⟨[]⟩)
  ∧ (is_not_found e = false →
      (∃ msg, fetch_supported_payments env payee = .error (.Transport msg))
      ∧ (∃ msg, get_payment_list (pubkyReader env) payee = .error (.Transport msg))) := by
  rcases h with h | h <;>
  · constructor
    · intro hnf
      constructor <;>
        simp [fetch_supported_payments, get_payment_list, pubkyReader, list_entries,
          h, hnf, fetch_supported_payments_loop, Except.mapError]
    · intro hnf
      constructor
      · exact ⟨_, by simp [fetch_supported_payments, list_entries, h, hnf]; rfl⟩
      · exact ⟨_, by simp [get_payment_list, pubkyReader, fetch_supported_payments,
          list_entries, h, hnf, Except.mapError, map_transport_error]; rfl⟩

/-- C2 witness: a network whose listing call reports 410 Gone: both the
transport call and the facade resolve to the empty collection. -/
theorem absent_namespace_yields_empty_witness :
    fetch_supported_payments
        ⟨fun _ => .err (.server 404 (str "nf")),
         fun _ => .builderErr (.server 410 (str "gone")),
         fun s => .ok s⟩ (str "bob") = .ok ⟨[]⟩
    ∧ get_payment_list
        (pubkyReader ⟨fun _ => .err (.server 404 (str "nf")),
          fun _ => .builderErr (.server 410 (str "gone")),
          fun s => .ok s⟩) (str "bob") = .ok ⟨[]⟩ :=
  (absent_namespace_yields_empty
    ⟨fun _ => .err (.server 404 (str "nf")),
     fun _ => .builderErr (.server 410 (str "gone")),
     fun s => .ok s⟩ (str "bob") (.server 410 (str "gone")) (Or.inl rfl)).1 rfl

/-- C3: `fetch_payment_endpoint` returns `Ok none` exactly when the
document at the method's address is absent (not-found/gone) or has an
empty body; it returns `Ok (some payload)` for a non-empty decodable
body; and it returns a `Transport` error only on other failures
(failed body read, non-UTF-8 content, non-not-found request errors),
never on absence. -/
theorem fetch_endpoint_absence_semantics (env : Env) (payee method : Text) :
    ((∃ e, env.get (endpointAddr payee method) = .err e ∧ is_not_found e = true) →
      fetch_payment_endpoint env payee method = .ok none)
  ∧ (env.get (endpointAddr payee method) = .ok [] →
      fetch_payment_endpoint env payee method = .ok none)
  ∧ (∀ bytes s, env.get (endpointAddr payee method) = .ok bytes → bytes ≠ [] →
      utf8Decode bytes = some s →
      fetch_payment_endpoint env payee method = .ok (some s))
  ∧ (∀ bytes, env.get (endpointAddr payee method) = .ok bytes → bytes ≠ [] →
      utf8Decode bytes = none →
      ∃ msg, fetch_payment_endpoint env payee method = .error (.Transport msg))
  ∧ (∀ e, env.get (endpointAddr payee method) = .err e → is_not_found e = false →
      ∃ msg, fetch_payment_endpoint env payee method = .error (.Transport msg))
  ∧ (∀ m, env.get (endpointAddr payee method) = .bytesErr m →
      ∃ msg, fetch_payment_endpoint env payee method = .error (.Transport msg))
  ∧ (fetch_payment_endpoint env payee method = .ok none →
      (∃ e, env.get (endpointAddr payee method) = .err e ∧ is_not_found e = true)
      ∨ env.get (endpointAddr payee method) = .ok []) := by
  refine ⟨?_, ?_, ?_, ?_, ?_, ?_, ?_⟩
  · rintro ⟨e, hg, hnf⟩
    simp [fetch_payment_endpoint, fetch_text, hg, hnf]
  · intro hg
    simp [fetch_payment_endpoint, fetch_text, hg]
  · intro bytes s hg hne hdec
    have hemp : bytes.isEmpty = false := by
      cases bytes with
      | nil => exact absurd rfl hne
      | cons a b => rfl
    simp [fetch_payment_endpoint, fetch_text, hg, hemp, hdec]
  · intro bytes hg hne hdec
    have hemp : bytes.isEmpty = false := by
      cases bytes with
      | nil => exact absurd rfl hne
      | cons a b => rfl
    exact ⟨_, by simp [fetch_payment_endpoint, fetch_text, hg, hemp, hdec]; rfl⟩
  · intro e hg hnf
    exact ⟨_, by simp [fetch_payment_endpoint, fetch_text, hg, hnf]; rfl⟩
  · intro m hg
    exact ⟨_, by simp [fetch_payment_endpoint, fetch_text, hg]; rfl⟩
  · intro hres
    cases hg : env.get (endpointAddr payee method) with
    | ok bytes =>
      by_cases hbs : bytes = []
      · subst hbs
        exact Or.inr rfl
      · exfalso
        have hemp : bytes.isEmpty = false := by
          cases bytes with
          | nil => exact absurd rfl hbs
          | cons a b => rfl
        cases hdec : utf8Decode bytes with
        | some s =>
          have hsome : fetch_payment_endpoint env payee method = .ok (some s) := by
            simp [fetch_payment_endpoint, fetch_text, hg, hemp, hdec]
          rw [hsome] at hres
          simp at hres
        | none =>
          have herr : fetch_payment_endpoint env payee method
              = .error (.Transport (str "fetch endpoint" ++ str ": invalid utf-8")) := by
            simp [fetch_payment_endpoint, fetch_text, hg, hemp, hdec]
          rw [herr] at hres
          simp at hres
    | bytesErr m =>
      exfalso
      have herr : fetch_payment_endpoint env payee method
          = .error (.Transport (str "fetch endpoint" ++ str ": " ++ m)) := by
        simp [fetch_payment_endpoint, fetch_text, hg]
      rw [herr] at hres
      simp at hres
    | err e =>
      by_cases hnf : is_not_found e = true
      · exact Or.inl ⟨e, rfl, hnf⟩
      · exfalso
        simp only [Bool.not_eq_true] at hnf
        have herr : fetch_payment_endpoint env payee method
            = .error (.Transport (str "fetch endpoint" ++ str ": " ++ errText e)) := by
          simp [fetch_payment_endpoint, fetch_text, hg, hnf]
        rw [herr] at hres
        simp at hres

/-- C3 witness: a network reporting 404 for every `get`: the fetch
resolves to `Ok none`. -/
theorem fetch_endpoint_absence_semantics_witness :
    fetch_payment_endpoint
        ⟨fun _ => .err (.server 404 (str "nf")), fun _ => .ok [], fun s => .ok s⟩
        (str "payee") (str "m") = .ok none :=
  (fetch_endpoint_absence_semantics
    ⟨fun _ => .err (.server 404 (str "nf")), fun _ => .ok [], fun s => .ok s⟩
    (str "payee") (str "m")).1 ⟨.server 404 (str "nf"), rfl, rfl⟩

/-- C8: removing a method whose document does not exist fails with a
`Transport` error (never a silent success); removing one whose document
exists succeeds and the document is gone afterwards. -/
theorem remove_endpoint_semantics (owner method : Text) (st : Store) :
    (lookupA (rootOf owner ++ ( PAYKIT_PATH_PREFIX ++ method)) st.files = none →
      ∃ msg, remove_payment_endpoint_run owner st method = .error (.Transport msg))
  ∧ (∀ content,
      lookupA (rootOf owner ++ ( PAYKIT_PATH_PREFIX ++ method)) st.files = some content →
      ∃ st2, remove_payment_endpoint_run owner st method = .ok st2
        ∧ lookupA (rootOf owner ++ ( PAYKIT_PATH_PREFIX ++ method)) st2.files = none) := by
  constructor
  · intro habs
    exact ⟨_, by simp [remove_payment_endpoint_run, PubkyAuth.remove_payment_endpoint,
      Store.delete, habs, Except.mapError, map_transport_error]; rfl⟩
  · intro content hpres
    refine ⟨⟨st.files.filter
      (fun kv => kv.1 != rootOf owner ++ ( PAYKIT_PATH_PREFIX ++ method))⟩, ?_, ?_⟩
    · simp [remove_payment_endpoint_run, PubkyAuth.remove_payment_endpoint,
        Store.delete, hpres, Except.mapError]
    · exact lookupA_filter_ne _ st.files

/-- C8 witness: with the document present in a one-file store the removal
succeeds and the document is gone; the store address is evaluated
concretely. -/
theorem remove_endpoint_semantics_witness :
    ∃ st2, remove_payment_endpoint_run (str "o")
        ⟨[(rootOf (str "o") ++ ( PAYKIT_PATH_PREFIX ++ str "m"), str "x")]⟩ (str "m")
        = .ok st2
      ∧ lookupA (rootOf (str "o") ++ ( PAYKIT_PATH_PREFIX ++ str "m")) st2.files = none :=
  (remove_endpoint_semantics (str "o") (str "m")
    ⟨[(rootOf (str "o") ++ ( PAYKIT_PATH_PREFIX ++ str "m"), str "x")]⟩).2
    (str "x") (by decide)

/-- C4 counterexample: a contacts listing containing an entry with the
empty path (it does not end in `/`, and no non-empty trailing segment
can be extracted): `fetch_known_contacts` succeeds with an empty list —
the entry is silently skipped, the operation does not fail. -/
theorem malformed_entry_contacts_counterexample :
    endsWithSlash ([] : Text) = false
    ∧ lastSegment ([] : Text) = none
    ∧ fetch_known_contacts
        ⟨fun _ => .ok [], fun _ => .ok [⟨[], []⟩], fun s => .ok s⟩
        (str "o") = .ok [] := by
  refine ⟨rfl, rfl, rfl⟩

/-- C4 (amended): in the supported-payments resolution an entry whose
path does not end in `/` but yields no non-empty trailing segment fails
the whole operation with an error; in the contacts resolution such an
entry is silently skipped (the loop continues unchanged). -/
theorem malformed_entry_handling (env : Env) (parse : Text → Except Text Text)
    (r : PubkyResource) (rest : List PubkyResource)
    (map : List (Text × Text)) (contacts : List Text)
    (h1 : endsWithSlash r.path = false) (h2 : lastSegment r.path = none) :
    fetch_supported_payments_loop env (r :: rest) map
      = .error (.Transport (str "invalid resource returned for supported payment entry"))
  ∧ fetch_known_contacts_loop parse (r :: rest) contacts
      = fetch_known_contacts_loop parse rest contacts := by
  constructor <;>
    simp [fetch_supported_payments_loop, fetch_known_contacts_loop, h1, h2]

/-- C4 witness: the amended behaviour evaluated at the concrete
empty-path entry. -/
theorem malformed_entry_handling_witness :
    fetch_supported_payments_loop
        ⟨fun _ => .ok [], fun _ => .ok [], fun s => .ok s⟩ [⟨[], []⟩] []
      = .error (.Transport (str "invalid resource returned for supported payment entry"))
    ∧ fetch_known_contacts_loop (fun s => .ok s) [⟨[], []⟩] []
      = fetch_known_contacts_loop (fun s => .ok s) [] [] :=
  malformed_entry_handling ⟨fun _ => .ok [], fun _ => .ok [], fun s => .ok s⟩
    (fun s => .ok s) ⟨[], []⟩ [] [] [] rfl rfl

/-- C6: in `fetch_supported_payments`, pseudo-directory entries (path
ending in `/`) are discarded; an entry whose fetched document is absent
or empty is skipped without error; a non-empty payload is inserted into
the result keyed by the entry's trailing segment; and of two listed
entries with the same method id the later one's payload is the one left
in the result (map overwrite semantics). -/
theorem supported_payments_aggregation :
    (∀ env r rest map, endsWithSlash r.path = true →
        fetch_supported_payments_loop env (r :: rest) map
          = fetch_supported_payments_loop env rest map)
  ∧ (∀ env r rest map method, endsWithSlash r.path = false →
      lastSegment r.path = some method →
      fetch_text (env.get r.addr) (str "fetch endpoint " ++ method) = .ok none →
        fetch_supported_payments_loop env (r :: rest) map
          = fetch_supported_payments_loop env rest map)
  ∧ (∀ env r rest map method payload, endsWithSlash r.path = false →
      lastSegment r.path = some method →
      fetch_text (env.get r.addr) (str "fetch endpoint " ++ method) = .ok (some payload) →
        fetch_supported_payments_loop env (r :: rest) map
          = fetch_supported_payments_loop env rest (insertA method payload map))
  ∧ (∀ k v m, lookupA k (insertA k v m) = some v)
  ∧ (∀ env payee r1 r2 method p1 p2,
      env.list (paymentsListAddr payee) = .ok [r1, r2] →
      endsWithSlash r1.path = false → lastSegment r1.path = some method →
      endsWithSlash r2.path = false → lastSegment r2.path = some method →
      fetch_text (env.get r1.addr) (str "fetch endpoint " ++ method) = .ok (some p1) →
      fetch_text (env.get r2.addr) (str "fetch endpoint " ++ method) = .ok (some p2) →
      ∃ sp, fetch_supported_payments env payee = .ok sp
        ∧ lookupA method sp.entries = some p2) := by
  refine ⟨?_, ?_, ?_, fun k v m => lookupA_insertA_self k v m, ?_⟩
  · intro env r rest map hdir
    simp [fetch_supported_payments_loop, hdir]
  · intro env r rest map method hdir hseg hft
    simp [fetch_supported_payments_loop, hdir, hseg, hft]
  · intro env r rest map method payload hdir hseg hft
    simp [fetch_supported_payments_loop, hdir, hseg, hft]
  · intro env payee r1 r2 method p1 p2 hlist h1 hseg1 h2 hseg2 hf1 hf2
    refine ⟨⟨insertA method p2 (insertA method p1 [])⟩, ?_,
      lookupA_insertA_self method p2 (insertA method p1 [])⟩
    simp [fetch_supported_payments, list_entries, hlist,
      fetch_supported_payments_loop, h1, hseg1, hf1, h2, hseg2, hf2]

/-- C6 witness: two entries with the same trailing segment `m` and
non-empty payloads: the result maps `m` to the later payload. -/
theorem supported_payments_aggregation_witness :
    ∃ sp, fetch_supported_payments
        ⟨fun _ => .ok [112],
         fun _ => .ok [⟨str "x/m", str "a1"⟩, ⟨str "y/m", str "a2"⟩],
         fun s => .ok s⟩ (str "bob") = .ok sp
      ∧ lookupA (str "m") sp.entries = some [112] := by
  have hdec : utf8Decode [112] = some [112] := by
    rw [utf8Decode_cons]
    simp [utf8DecodeOne, utf8Decode_nil]
  have hft : fetch_text (GetOutcome.ok [112]) (str "fetch endpoint " ++ str "m")
      = .ok (some [112]) := by
    simp [fetch_text, hdec]
  exact supported_payments_aggregation.2.2.2.2
    ⟨fun _ => .ok [112],
     fun _ => .ok [⟨str "x/m", str "a1"⟩, ⟨str "y/m", str "a2"⟩],
     fun s => .ok s⟩ (str "bob") ⟨str "x/m", str "a1"⟩ ⟨str "y/m", str "a2"⟩
    (str "m") [112] [112] rfl (by decide) (by decide) (by decide) (by decide) hft hft

theorem contacts_loop_acc_sub (parse : Text → Except Text Text)
    (rs : List PubkyResource) :
    ∀ acc out, fetch_known_contacts_loop parse rs acc = .ok out →
      ∀ x ∈ acc, x ∈ out := by
  induction rs with
  | nil =>
    intro acc out h x hx
    simp [fetch_known_contacts_loop] at h
    subst h
    exact hx
  | cons r rest ih =>
    intro acc out h x hx
    simp only [fetch_known_contacts_loop] at h
    split at h
    · exact ih _ _ h x hx
    · split at h
      · split at h
        · exact ih _ _ h x (by simp [hx])
        · simp at h
      · exact ih _ _ h x hx

theorem contacts_loop_mem (parse : Text → Except Text Text)
    (rs : List PubkyResource) :
    ∀ acc out, fetch_known_contacts_loop parse rs acc = .ok out →
      ∀ r ∈ rs, endsWithSlash r.path = false →
        ∀ seg, lastSegment r.path = some seg →
          ∀ pk, parse seg = .ok pk → pk ∈ out := by
  induction rs with
  | nil =>
    intro acc out h r hr
    simp at hr
  | cons r0 rest ih =>
    intro acc out h r hr hnd seg hseg pk hpk
    rcases List.mem_cons.mp hr with hre | hrin
    · subst hre
      simp only [fetch_known_contacts_loop, hnd, hseg, hpk] at h
      simp at h
      exact contacts_loop_acc_sub parse rest _ _ h pk (by simp)
    · simp only [fetch_known_contacts_loop] at h
      split at h
      · exact ih _ _ h r hrin hnd seg hseg pk hpk
      · split at h
        · split at h
          · exact ih _ _ h r hrin hnd seg hseg pk hpk
          · simp at h
        · exact ih _ _ h r hrin hnd seg hseg pk hpk

theorem contacts_loop_fail (parse : Text → Except Text Text)
    (rs : List PubkyResource) :
    ∀ acc, (∃ r ∈ rs, endsWithSlash r.path = false ∧
        ∃ seg, lastSegment r.path = some seg ∧ ∃ perr, parse seg = .error perr) →
      ∃ seg perr, parse seg = .error perr
        ∧ (∃ r ∈ rs, endsWithSlash r.path = false ∧ lastSegment r.path = some seg)
        ∧ fetch_known_contacts_loop parse rs acc
            = .error (.Transport (str "invalid contact entry " ++ [39] ++ seg ++ [39]
                ++ str ": " ++ perr)) := by
  induction rs with
  | nil =>
    intro acc h
    simp at h
  | cons r0 rest ih =>
    intro acc hex
    by_cases hdir : endsWithSlash r0.path = true
    · have hex2 : ∃ r ∈ rest, endsWithSlash r.path = false ∧
          ∃ seg, lastSegment r.path = some seg ∧ ∃ perr, parse seg = .error perr := by
        obtain ⟨r, hr, hnd, hrest⟩ := hex
        rcases List.mem_cons.mp hr with hre | hrin
        · subst hre
          rw [hdir] at hnd
          exact absurd hnd (by simp)
        · exact ⟨r, hrin, hnd, hrest⟩
      obtain ⟨seg, perr, hp, ⟨r, hrin, hr1, hr2⟩, hloop⟩ := ih acc hex2
      refine ⟨seg, perr, hp, ⟨r, by simp [hrin], hr1, hr2⟩, ?_⟩
      simp [fetch_known_contacts_loop, hdir, hloop]
    · simp only [Bool.not_eq_true] at hdir
      cases hseg0 : lastSegment r0.path with
      | none =>
        have hex2 : ∃ r ∈ rest, endsWithSlash r.path = false ∧
            ∃ seg, lastSegment r.path = some seg ∧ ∃ perr, parse seg = .error perr := by
          obtain ⟨r, hr, hnd, seg, hseg, hrest⟩ := hex
          rcases List.mem_cons.mp hr with hre | hrin
          · subst hre
            rw [hseg0] at hseg
            exact absurd hseg (by simp)
          · exact ⟨r, hrin, hnd, seg, hseg, hrest⟩
        obtain ⟨seg, perr, hp, ⟨r, hrin, hr1, hr2⟩, hloop⟩ := ih acc hex2
        refine ⟨seg, perr, hp, ⟨r, by simp [hrin], hr1, hr2⟩, ?_⟩
        simp [fetch_known_contacts_loop, hdir, hseg0, hloop]
      | some seg0 =>
        cases hp0 : parse seg0 with
        | error perr0 =>
          refine ⟨seg0, perr0, hp0, ⟨r0, by simp, hdir, hseg0⟩, ?_⟩
          simp [fetch_known_contacts_loop, hdir, hseg0, hp0]
        | ok pk0 =>
          have hex2 : ∃ r ∈ rest, endsWithSlash r.path = false ∧
              ∃ seg, lastSegment r.path = some seg ∧ ∃ perr, parse seg = .error perr := by
            obtain ⟨r, hr, hnd, seg, hseg, perr, hperr⟩ := hex
            rcases List.mem_cons.mp hr with hre | hrin
            · subst hre
              rw [hseg0] at hseg
              have hsegeq : seg = seg0 := (Option.some.inj hseg).symm
              subst hsegeq
              rw [hp0] at hperr
              exact absurd hperr (by simp)
            · exact ⟨r, hrin, hnd, seg, hseg, perr, hperr⟩
          obtain ⟨seg, perr, hp, ⟨r, hrin, hr1, hr2⟩, hloop⟩ := ih (acc ++ [pk0]) hex2
          refine ⟨seg, perr, hp, ⟨r, by simp [hrin], hr1, hr2⟩, ?_⟩
          simp [fetch_known_contacts_loop, hdir, hseg0, hp0, hloop]

/-- C5: if any contacts-listing entry's extracted trailing segment fails
to parse as a public key, `fetch_known_contacts` returns a `Transport`
error whose message names the offending segment (no partial list is
returned); otherwise every parsed key of a non-directory entry appears
in the returned sequence. -/
theorem contacts_parse_failure_semantics (env : Env) (owner : Text)
    (es : List PubkyResource)
    (hlist : env.list (followsAddr owner) = .ok es) :
    ((∃ r ∈ es, endsWithSlash r.path = false ∧
        ∃ seg, lastSegment r.path = some seg ∧ ∃ perr, env.parsePk seg = .error perr) →
      ∃ seg perr, env.parsePk seg = .error perr
        ∧ (∃ r ∈ es, endsWithSlash r.path = false ∧ lastSegment r.path = some seg)
        ∧ fetch_known_contacts env owner
            = .error (.Transport (str "invalid contact entry " ++ [39] ++ seg ++ [39]
                ++ str ": " ++ perr)))
  ∧ (∀ contacts, fetch_known_contacts env owner = .ok contacts →
      ∀ r ∈ es, endsWithSlash r.path = false →
        ∀ seg, lastSegment r.path = some seg →
          ∀ pk, env.parsePk seg = .ok pk → pk ∈ contacts) := by
  constructor
  · intro hex
    obtain ⟨seg, perr, hp, hw, hloop⟩ := contacts_loop_fail env.parsePk es [] hex
    exact ⟨seg, perr, hp, hw,
      by simp [fetch_known_contacts, list_entries, hlist, hloop]⟩
  · intro contacts hok r hr hnd seg hseg pk hpk
    have hloop : fetch_known_contacts_loop env.parsePk es [] = .ok contacts := by
      simpa [fetch_known_contacts, list_entries, hlist] using hok
    exact contacts_loop_mem env.parsePk es [] contacts hloop r hr hnd seg hseg pk hpk

/-- C5 witness: a listing with one entry `f/k1` and a parser that
rejects everything: the operation fails with the offending segment named
in the message. -/
theorem contacts_parse_failure_semantics_witness :
    ∃ seg perr, (fun _ : Text => (.error (str "bad") : Except Text Text)) seg = .error perr
      ∧ (∃ r ∈ [(⟨str "f/k1", str "addr"⟩ : PubkyResource)],
          endsWithSlash r.path = false ∧ lastSegment r.path = some seg)
      ∧ fetch_known_contacts
          ⟨fun _ => .ok [], fun _ => .ok [⟨str "f/k1", str "addr"⟩],
           fun _ => .error (str "bad")⟩ (str "o")
          = .error (.Transport (str "invalid contact entry " ++ [39] ++ seg ++ [39]
              ++ str ": " ++ perr)) :=
  (contacts_parse_failure_semantics
    ⟨fun _ => .ok [], fun _ => .ok [⟨str "f/k1", str "addr"⟩],
     fun _ => .error (str "bad")⟩ (str "o")
    [⟨str "f/k1", str "addr"⟩] rfl).1
    ⟨⟨str "f/k1", str "addr"⟩, by simp, by decide, str "k1", by decide,
      str "bad", rfl⟩

/-- C1 (amended): for every method id and every NON-EMPTY endpoint
payload, `set_payment_endpoint` followed by `get_payment_endpoint` for
the same payee and method over the pubky transports returns
`Some(data)`. -/
theorem set_then_get_roundtrip (owner method data : Text) (st st2 : Store)
    (l : Text → ListOutcome) (p : Text → Except Text Text)
    (hv : ValidText data) (hne : data ≠ [])
    (hset : set_payment_endpoint_run owner st method data = .ok st2) :
    get_payment_endpoint (pubkyReader (st2.env l p)) owner method
      = .ok (some data) := by
  have hst2 : st2
      = st.put (rootOf owner ++ ( PAYKIT_PATH_PREFIX ++ method)) (utf8Encode data) := by
    simp [set_payment_endpoint_run, PubkyAuth.upsert_payment_endpoint,
      Except.mapError] at hset
    exact hset.symm
  have haddr : endpointAddr owner method
      = rootOf owner ++ ( PAYKIT_PATH_PREFIX ++ method) := by
    simp [endpointAddr, rootOf, List.append_assoc]
  have hget : (st2.env l p).get (endpointAddr owner method) = .ok (utf8Encode data) := by
    show st2.getOutcome (endpointAddr owner method) = .ok (utf8Encode data)
    rw [hst2, haddr]
    simp [Store.getOutcome, Store.put, lookupA_insertA_self]
  have hemp : (utf8Encode data).isEmpty = false := by
    cases hx : utf8Encode data with
    | nil => exact absurd hx (utf8Encode_ne_nil data hne)
    | cons a b => rfl
  simp [get_payment_endpoint, pubkyReader, fetch_payment_endpoint, fetch_text,
    hget, hemp, utf8Decode_utf8Encode data hv, Except.mapError]

/-- C1 counterexample: with the EMPTY payload, set-then-get returns
`Ok none`, not `Ok (some "")`: on the read side an empty stored body is
indistinguishable from absence. -/
theorem set_then_get_empty_counterexample :
    set_payment_endpoint_run (str "a") ⟨[]⟩ (str "m") []
      = .ok (Store.put ⟨[]⟩
          (rootOf (str "a") ++ ( PAYKIT_PATH_PREFIX ++ str "m")) (utf8Encode []))
    ∧ get_payment_endpoint
        (pubkyReader (Store.env
          (Store.put ⟨[]⟩
            (rootOf (str "a") ++ ( PAYKIT_PATH_PREFIX ++ str "m")) (utf8Encode []))
          (fun _ => .ok []) (fun s => .ok s)))
        (str "a") (str "m") = .ok none
    ∧ (Except.ok none : Except PaykitError (Option Text)) ≠ .ok (some []) := by
  refine ⟨rfl, rfl, by simp⟩

/-- C1 witness: the round trip evaluated for payee `alice`, method
`lightning` and the non-empty payload `pay`. -/
theorem set_then_get_roundtrip_witness :
    ValidText (str "pay") ∧ str "pay" ≠ []
    ∧ get_payment_endpoint
        (pubkyReader (Store.env
          (Store.put ⟨[]⟩
            (rootOf (str "alice") ++ ( PAYKIT_PATH_PREFIX ++ str "lightning"))
            (utf8Encode (str "pay")))
          (fun _ => .ok []) (fun s => .ok s)))
        (str "alice") (str "lightning") = .ok (some (str "pay")) :=
  ⟨by decide, by decide,
    set_then_get_roundtrip (str "alice") (str "lightning") (str "pay") ⟨[]⟩
      (Store.put ⟨[]⟩
        (rootOf (str "alice") ++ ( PAYKIT_PATH_PREFIX ++ str "lightning"))
        (utf8Encode (str "pay")))
      (fun _ => .ok []) (fun s => .ok s) (by decide) (by decide) rfl⟩
